import Mathlib

/-!
# Verification of `scripts/render_synthetic_chart.py`

A shallow embedding of the chart-rendering script. The script reads a JSON
payload `{"points": [{"label": str, "totalValue": number}, ...]}`, linearly
scales the values into pixel coordinates, and emits an SVG document as text.

Modelling conventions:
* Python numbers are modelled as exact rationals (`ℚ`).
* Python exceptions are modelled by `Except PyErr` / an error component;
  the kinds of exception the script can raise are the constructors of `PyErr`.
* The two I/O side effects (writing the SVG file, printing the confirmation
  message) are modelled as an explicit effect list produced by `runScript`;
  the effect list of a run that raises is empty, mirroring the fact that the
  script's only effectful statements are its final two lines.
* `f"{x:.2f}"` formatting is modelled by `fmt2` (round to 2 decimal digits;
  ties are rounded up rather than to even, which only differs from CPython
  at exact ties and is irrelevant to the properties proved here).
-/

set_option autoImplicit false

/-! ## String-prefix helpers -/

/-- Boolean prefix test on character lists, used to classify emitted SVG
lines by their leading markup. -/
def listStarts : List Char → List Char → Bool
  | [], _ => true
  | _ :: _, [] => false
  | a :: as, b :: bs => a == b && listStarts as bs

/-- `strStarts pre s` is true when the string `s` begins with `pre`. -/
def strStarts (pre s : String) : Bool :=
  listStarts pre.data s.data

/-- The number of lines in `ls` that begin with `pre`. -/
def countMatching (pre : String) (ls : List String) : Nat :=
  (ls.filter (fun l => strStarts pre l)).length

/-! ## Python exceptions and JSON values -/

/-- The exceptions the script can raise.  `valueErrorEmptySeq` is the
`ValueError` raised by `min()`/`max()` on an empty sequence.
`zeroDivisionError` is listed because the specification mentions it; the
proofs show the script never actually raises it. -/
inductive PyErr where
  | fileNotFound
  | jsonDecodeError
  | keyError (k : String)
  | typeError
  | valueErrorEmptySeq
  | zeroDivisionError
  deriving DecidableEq, Repr

/-- JSON values, as returned by `json.load`.  Numbers are modelled as exact
rationals. -/
inductive Json where
  | null
  | bool (b : Bool)
  | num (q : ℚ)
  | str (s : String)
  | arr (elems : List Json)
  | obj (fields : List (String × Json))

/-- Python subscription `j[k]`: a `KeyError` when the key is absent, a
`TypeError` when `j` is not an object. -/
def Json.getKey : Json → String → Except PyErr Json
  | .obj fields, k =>
    match fields.lookup k with
    | some v => .ok v
    | none => .error (.keyError k)
  | _, _ => .error .typeError

/-- Coerce a JSON value to a number.  (In CPython a non-numeric value would
only be rejected later, at the `min()` comparison; folding the check into
extraction raises the same fatal `TypeError` slightly earlier and changes no
observable property proved here.) -/
def Json.asNum : Json → Except PyErr ℚ
  | .num q => .ok q
  | _ => .error .typeError

/-- Coerce a JSON value to a string (the `label` field). -/
def Json.asStr : Json → Except PyErr String
  | .str s => .ok s
  | _ => .error .typeError

/-- Coerce a JSON value to an array (the `points` field). -/
def Json.asArr : Json → Except PyErr (List Json)
  | .arr l => .ok l
  | _ => .error .typeError

/-! ## Geometry (script lines 14–27)

The script hardcodes `width, height = 900, 420` and `padding = 60`; the
definitions below take them as parameters (as the specification itself
suggests for testability) and the whole-script model instantiates them with
the hardcoded constants. -/

def usableWidth (width padding : ℚ) : ℚ := width - 2 * padding

def usableHeight (height padding : ℚ) : ℚ := height - 2 * padding

/-- Python `min(values)` on a nonempty list (a left fold, like CPython's). -/
def listMin : List ℚ → Option ℚ
  | [] => none
  | v :: vs => some (vs.foldl min v)

/-- Python `max(values)` on a nonempty list. -/
def listMax : List ℚ → Option ℚ
  | [] => none
  | v :: vs => some (vs.foldl max v)

/-- `min(values)`, raising `ValueError` on an empty sequence. -/
def pyMin (vs : List ℚ) : Except PyErr ℚ :=
  match listMin vs with
  | some m => .ok m
  | none => .error .valueErrorEmptySeq

/-- `max(values)`, raising `ValueError` on an empty sequence. -/
def pyMax (vs : List ℚ) : Except PyErr ℚ :=
  match listMax vs with
  | some m => .ok m
  | none => .error .valueErrorEmptySeq

/-- `val_range = max_val - min_val or 1` (script line 21): `or` substitutes
`1` exactly when `max_val - min_val` is (falsy, i.e.) zero. -/
def valRange (mn mx : ℚ) : ℚ :=
  if mx - mn = 0 then 1 else mx - mn

/-- The x-coordinate of the point with index `i` in a series of `n` points
(script line 25). -/
def xCoord (width padding : ℚ) (n i : ℕ) : ℚ :=
  if 1 < n then padding + usableWidth width padding * i / (↑(n - 1))
  else padding + usableWidth width padding / 2

/-- The y-coordinate of a point with value `v` (script line 26). -/
def yCoord (height padding mn r v : ℚ) : ℚ :=
  padding + usableHeight height padding * (1 - (v - mn) / r)

/-- The `for idx, value in enumerate(values)` loop of script lines 23–27,
with `i` the running index. -/
def coordsAux (width height padding mn r : ℚ) (n : ℕ) : ℕ → List ℚ → List (ℚ × ℚ)
  | _, [] => []
  | i, v :: vs =>
    (xCoord width padding n i, yCoord height padding mn r v)
      :: coordsAux width height padding mn r n (i + 1) vs

/-- The scaled coordinate list `coords` of the script. -/
def coords (width height padding mn mx : ℚ) (values : List ℚ) : List (ℚ × ℚ) :=
  coordsAux width height padding mn (valRange mn mx) values.length 0 values

/-! ## Number formatting (f-string slots) -/

/-- Zero-pad a two-digit fraction. -/
def pad2 (n : ℕ) : String :=
  if n < 10 then "0" ++ toString n else toString n

/-- Zero-pad a three-digit thousands group. -/
def pad3 (n : ℕ) : String :=
  if n < 10 then "00" ++ toString n
  else if n < 100 then "0" ++ toString n
  else toString n

/-- Round a rational to the nearest integer (ties up): `⌊q + 1/2⌋` computed
on the normalised numerator and denominator. -/
def ratRound (q : ℚ) : ℤ :=
  Int.fdiv (2 * q.num + q.den) (2 * q.den)

/-- Print an amount of hundredths as a two-decimal number. -/
def fmt2Int (n : ℤ) : String :=
  (if n < 0 then "-" else "") ++ toString (n.natAbs / 100) ++ "." ++ pad2 (n.natAbs % 100)

/-- Python's `f"{x:.2f}"`. -/
def fmt2 (q : ℚ) : String :=
  fmt2Int (ratRound (q * 100))

/-- Insert thousands separators, as `f"{v:,.0f}"` does. -/
def withCommas (n : ℕ) : String :=
  if n < 1000 then toString n
  else withCommas (n / 1000) ++ "," ++ pad3 (n % 1000)
  decreasing_by exact Nat.div_lt_self (by omega) (by norm_num)

/-- Python's `f"{v:,.0f}"`: round to an integer, group by thousands. -/
def moneyFmt (v : ℚ) : String :=
  (if ratRound v < 0 then "-" else "") ++ withCommas (ratRound v).natAbs

/-- An f-string slot holding a number printed without format spec (the
integer-valued constants `width`, `height`, `padding` and their halves). -/
def ratStr (q : ℚ) : String := toString q

/-! ## SVG assembly (script lines 29–51) -/

/-- `str.join` with a separator, as used for `' L '.join(...)` and
`'\n'.join(svg_lines)`. -/
def joinSep (sep : String) : List String → String
  | [] => ""
  | [a] => a
  | a :: b :: rest => a ++ sep ++ joinSep sep (b :: rest)

/-- One `f"{x:.2f} {y:.2f}"` fragment of the path (script line 30). -/
def fmtPair (c : ℚ × ℚ) : String :=
  fmt2 c.1 ++ " " ++ fmt2 c.2

/-- `path_d = 'M ' + ' L '.join(...)` (script line 30). -/
def pathD (cs : List (ℚ × ℚ)) : String :=
  "M " ++ joinSep " L " (cs.map fmtPair)

/-- One horizontal gridline (script line 41). -/
def gridLineStr (width padding y : ℚ) : String :=
  "    <line x1='" ++ ratStr padding ++ "' y1='" ++ fmt2 y ++ "' x2='"
    ++ ratStr (width - padding) ++ "' y2='" ++ fmt2 y ++ "' stroke-opacity='0.4' />"

/-- The y-position of gridline `i` (script line 40). -/
def gridY (height padding : ℚ) (i : ℕ) : ℚ :=
  padding + usableHeight height padding * i / 4

/-- The five horizontal gridlines (script lines 39–41). -/
def gridLines (width height padding : ℚ) : List String :=
  (List.range 5).map (fun i => gridLineStr width padding (gridY height padding i))

/-- The path element (script line 43). -/
def pathLineStr (cs : List (ℚ × ℚ)) : String :=
  "  <path d='" ++ pathD cs
    ++ "' fill='none' stroke='#38bdf8' stroke-width='3' stroke-linecap='round' stroke-linejoin='round' />"

/-- One circular point marker (script line 46). -/
def circleStr (c : ℚ × ℚ) : String :=
  "  <circle cx='" ++ fmt2 c.1 ++ "' cy='" ++ fmt2 c.2
    ++ "' r='5' fill='#f97316' stroke='#fff' stroke-width='2' />"

/-- One x-axis label (script line 47). -/
def labelTextStr (height padding : ℚ) (c : ℚ × ℚ) (label : String) : String :=
  "  <text x='" ++ fmt2 c.1 ++ "' y='" ++ fmt2 (height - padding / 2)
    ++ "' fill='#e2e8f0' font-size='14' text-anchor='middle'>" ++ label ++ "</text>"

/-- One value label (script line 48). -/
def valueTextStr (c : ℚ × ℚ) (v : ℚ) : String :=
  "  <text x='" ++ fmt2 c.1 ++ "' y='" ++ fmt2 (c.2 - 12)
    ++ "' fill='#38bdf8' font-size='12' text-anchor='middle'>$" ++ moneyFmt v ++ "</text>"

/-- The title element (script line 50). -/
def titleStr (width padding : ℚ) : String :=
  "  <text x=\"" ++ ratStr (width / 2) ++ "\" y=\"" ++ ratStr (padding / 2)
    ++ "\" fill=\"#e2e8f0\" font-size=\"16\" font-weight=\"bold\">Synthetic trading performance (weekends skipped)</text>"

/-- The `for (x, y), label, value in zip(coords, labels, values)` loop
(script lines 45–48): three lines per point. -/
def markerLines (height padding : ℚ) : List ((ℚ × ℚ) × String × ℚ) → List String
  | [] => []
  | (c, label, v) :: rest =>
    circleStr c :: labelTextStr height padding c label :: valueTextStr c v
      :: markerLines height padding rest

/-- The opening SVG tag (script line 34). -/
def svgOpenStr (width height : ℚ) : String :=
  "<svg xmlns='http://www.w3.org/2000/svg' width='" ++ ratStr width ++ "' height='"
    ++ ratStr height ++ "' viewBox='0 0 " ++ ratStr width ++ " " ++ ratStr height ++ "'>"

/-- The full `svg_lines` list (script lines 33–51). -/
def svgLines (width height padding : ℚ) (cs : List (ℚ × ℚ))
    (labels : List String) (values : List ℚ) : List String :=
  ([svgOpenStr width height,
    "  <rect width='100%' height='100%' fill='#0b1120' rx='16' />",
    "  <g stroke='#1f2937' stroke-width='1'>"]
   ++ gridLines width height padding
   ++ ["  </g>", pathLineStr cs]
   ++ markerLines height padding (cs.zip (labels.zip values))
   ++ [titleStr width padding, "</svg>"])

/-! ## The whole script -/

/-- One sample of the series: `{"label": ..., "totalValue": ...}`. -/
structure DataPoint where
  label : String
  totalValue : ℚ
  deriving DecidableEq, Repr

/-- The two fixed paths of the script. -/
def DATA_PATH : String := "scripts/output/synthetic_trading_data.json"

def OUTPUT_PATH : String := "scripts/output/synthetic_chart.svg"

/-- The observable side effects of a run. -/
inductive Effect where
  | write (path content : String)
  | print (msg : String)
  deriving DecidableEq, Repr

/-- The result of `DATA_PATH.open()` followed by `json.load`: the file can be
missing (`FileNotFoundError`), unparsable (`json.JSONDecodeError`), or a JSON
value. -/
inductive FileInput where
  | missing
  | unparsable
  | json (payload : Json)

/-- Script lines 10–51: everything between a successful `json.load` and the
final write, as one fallible computation producing the SVG text. -/
def scriptBody (payload : Json) : Except PyErr String := do
  let pointsJson ← payload.getKey "points"
  let pts ← pointsJson.asArr
  let values ← pts.mapM (fun p => do let v ← p.getKey "totalValue"; v.asNum)
  let labels ← pts.mapM (fun p => do let l ← p.getKey "label"; l.asStr)
  let mn ← pyMin values
  let mx ← pyMax values
  let cs := coords 900 420 60 mn mx values
  Except.ok (joinSep "\n" (svgLines 900 420 60 cs labels values))

/-- The whole script run: the effect trace together with the exception that
terminated it, if any.  The only effectful statements of the script are its
final two lines (the `write_text` and the `print`), so a run that raises
produces no effects. -/
def runScript (input : FileInput) : List Effect × Option PyErr :=
  match input with
  | .missing => ([], some .fileNotFound)
  | .unparsable => ([], some .jsonDecodeError)
  | .json payload =>
    match scriptBody payload with
    | .ok text =>
      ([.write OUTPUT_PATH text, .print ("Saved chart to " ++ OUTPUT_PATH)], none)
    | .error e => ([], some e)

/-- The JSON payload encoding a series, in the shape the script expects. -/
def jsonOfPoints (points : List DataPoint) : Json :=
  .obj [("points", .arr (points.map (fun p =>
    .obj [("label", .str p.label), ("totalValue", .num p.totalValue)])))]

/-! ## Helper lemmas: string prefixes -/

theorem listStarts_append_of_le (p q r : List Char) (hlen : p.length ≤ q.length) :
    listStarts p (q ++ r) = listStarts p q := by
  induction p generalizing q with
  | nil => simp [listStarts]
  | cons a as ih =>
    cases q with
    | nil => simp at hlen
    | cons b bs =>
      show (a == b && listStarts as (bs ++ r)) = (a == b && listStarts as bs)
      rw [ih bs (by simpa using hlen)]

theorem strStarts_append_of_le (pre lit r : String) (hlen : pre.data.length ≤ lit.data.length) :
    strStarts pre (lit ++ r) = strStarts pre lit := by
  simp only [strStarts, String.data_append]
  exact listStarts_append_of_le _ _ _ hlen

theorem countMatching_append (pre : String) (l₁ l₂ : List String) :
    countMatching pre (l₁ ++ l₂) = countMatching pre l₁ + countMatching pre l₂ := by
  simp [countMatching, List.filter_append]

/-! ## Helper lemmas: the divisions of the scaling formulas never divide
by zero (which justifies embedding them with total division on `ℚ`) -/

theorem valRange_ne_zero (mn mx : ℚ) : valRange mn mx ≠ 0 := by
  rw [valRange]
  split
  · norm_num
  · assumption

theorem xCoord_divisor_ne_zero (n : ℕ) (hn : 1 < n) : ((n - 1 : ℕ) : ℚ) ≠ 0 :=
  Nat.cast_ne_zero.mpr (by omega)

/-! ## Helper lemmas: folded minima and maxima -/

theorem foldl_min_le_init (vs : List ℚ) (a : ℚ) : vs.foldl min a ≤ a := by
  induction vs generalizing a with
  | nil => exact le_refl a
  | cons v vs ih => exact le_trans (ih (min a v)) (min_le_left a v)

theorem foldl_min_le_mem (vs : List ℚ) (a : ℚ) : ∀ v ∈ vs, vs.foldl min a ≤ v := by
  induction vs generalizing a with
  | nil => intro v hv; simp at hv
  | cons w ws ih =>
    intro v hv
    rcases List.mem_cons.mp hv with h | h
    · subst h
      exact le_trans (foldl_min_le_init ws (min a v)) (min_le_right a v)
    · exact ih (min a w) v h

theorem foldl_min_mem (vs : List ℚ) (a : ℚ) :
    vs.foldl min a = a ∨ vs.foldl min a ∈ vs := by
  induction vs generalizing a with
  | nil => exact Or.inl rfl
  | cons w ws ih =>
    rcases ih (min a w) with h | h
    · rcases min_choice a w with hm | hm
      · exact Or.inl (by rw [List.foldl_cons, h, hm])
      · exact Or.inr (by rw [List.foldl_cons, h, hm]; exact List.mem_cons_self w ws)
    · exact Or.inr (List.mem_cons_of_mem w h)

theorem foldl_max_le_init (vs : List ℚ) (a : ℚ) : a ≤ vs.foldl max a := by
  induction vs generalizing a with
  | nil => exact le_refl a
  | cons v vs ih => exact le_trans (le_max_left a v) (ih (max a v))

theorem foldl_max_le_mem (vs : List ℚ) (a : ℚ) : ∀ v ∈ vs, v ≤ vs.foldl max a := by
  induction vs generalizing a with
  | nil => intro v hv; simp at hv
  | cons w ws ih =>
    intro v hv
    rcases List.mem_cons.mp hv with h | h
    · subst h
      exact le_trans (le_max_right a v) (foldl_max_le_init ws (max a v))
    · exact ih (max a w) v h

theorem foldl_max_mem (vs : List ℚ) (a : ℚ) :
    vs.foldl max a = a ∨ vs.foldl max a ∈ vs := by
  induction vs generalizing a with
  | nil => exact Or.inl rfl
  | cons w ws ih =>
    rcases ih (max a w) with h | h
    · rcases max_choice a w with hm | hm
      · exact Or.inl (by rw [List.foldl_cons, h, hm])
      · exact Or.inr (by rw [List.foldl_cons, h, hm]; exact List.mem_cons_self w ws)
    · exact Or.inr (List.mem_cons_of_mem w h)

/-- `min(values)` returns a member of the list that bounds it from below. -/
theorem listMin_spec (values : List ℚ) (m : ℚ) (h : listMin values = some m) :
    m ∈ values ∧ ∀ v ∈ values, m ≤ v := by
  cases values with
  | nil => simp [listMin] at h
  | cons v vs =>
    have hm : vs.foldl min v = m := by simpa [listMin] using h
    constructor
    · rcases foldl_min_mem vs v with h' | h'
      · rw [← hm, h']; exact List.mem_cons_self v vs
      · rw [← hm]; exact List.mem_cons_of_mem v h'
    · intro w hw
      rcases List.mem_cons.mp hw with h' | h'
      · subst h'; rw [← hm]; exact foldl_min_le_init vs w
      · rw [← hm]; exact foldl_min_le_mem vs v w h'

/-- `max(values)` returns a member of the list that bounds it from above. -/
theorem listMax_spec (values : List ℚ) (m : ℚ) (h : listMax values = some m) :
    m ∈ values ∧ ∀ v ∈ values, v ≤ m := by
  cases values with
  | nil => simp [listMax] at h
  | cons v vs =>
    have hm : vs.foldl max v = m := by simpa [listMax] using h
    constructor
    · rcases foldl_max_mem vs v with h' | h'
      · rw [← hm, h']; exact List.mem_cons_self v vs
      · rw [← hm]; exact List.mem_cons_of_mem v h'
    · intro w hw
      rcases List.mem_cons.mp hw with h' | h'
      · subst h'; rw [← hm]; exact foldl_max_le_init vs w
      · rw [← hm]; exact foldl_max_le_mem vs v w h'

/-! ## Helper lemmas: the coordinate loop -/

theorem coordsAux_length (w h p mn r : ℚ) (n : ℕ) (i : ℕ) (vs : List ℚ) :
    (coordsAux w h p mn r n i vs).length = vs.length := by
  induction vs generalizing i with
  | nil => rfl
  | cons v vs ih => simp [coordsAux, ih]

theorem coords_length (w h p mn mx : ℚ) (values : List ℚ) :
    (coords w h p mn mx values).length = values.length :=
  coordsAux_length w h p mn (valRange mn mx) values.length 0 values

theorem coordsAux_map_snd (w h p mn r : ℚ) (n : ℕ) (i : ℕ) (vs : List ℚ) :
    (coordsAux w h p mn r n i vs).map Prod.snd = vs.map (yCoord h p mn r) := by
  induction vs generalizing i with
  | nil => rfl
  | cons v vs ih => simp [coordsAux, ih]

theorem coordsAux_mem (w h p mn r : ℚ) (n : ℕ) (i : ℕ) (vs : List ℚ)
    (xy : ℚ × ℚ) (hxy : xy ∈ coordsAux w h p mn r n i vs) :
    ∃ k v, v ∈ vs ∧ i ≤ k ∧ k < i + vs.length
      ∧ xy = (xCoord w p n k, yCoord h p mn r v) := by
  induction vs generalizing i with
  | nil => simp [coordsAux] at hxy
  | cons v vs ih =>
    rcases List.mem_cons.mp hxy with h' | h'
    · exact ⟨i, v, List.mem_cons_self v vs, le_refl i, by simp, h'⟩
    · rcases ih (i + 1) h' with ⟨k, u, hu, hik, hk, heq⟩
      exact ⟨k, u, List.mem_cons_of_mem v hu, by omega, by simp at hk ⊢; omega, heq⟩

theorem coordsAux_getD (w h p mn r : ℚ) (n : ℕ) (i : ℕ) (vs : List ℚ)
    (j : ℕ) (hj : j < vs.length) :
    (coordsAux w h p mn r n i vs).getD j (0, 0)
      = (xCoord w p n (i + j), yCoord h p mn r (vs.getD j 0)) := by
  induction vs generalizing i j with
  | nil => simp at hj
  | cons v vs ih =>
    cases j with
    | zero => simp [coordsAux]
    | succ j =>
      have hj' : j < vs.length := by simpa using hj
      simp only [coordsAux, List.getD_cons_succ]
      rw [ih (i + 1) j hj']
      ring_nf

theorem coords_getD (w h p mn mx : ℚ) (values : List ℚ) (j : ℕ) (hj : j < values.length) :
    (coords w h p mn mx values).getD j (0, 0)
      = (xCoord w p values.length j,
         yCoord h p mn (valRange mn mx) (values.getD j 0)) := by
  have := coordsAux_getD w h p mn (valRange mn mx) values.length 0 values j hj
  simpa using this

/-! ## Helper lemmas: classifying the emitted lines -/

theorem circleStr_is_circle (c : ℚ × ℚ) :
    strStarts "  <circle" (circleStr c) = true := by
  simp only [circleStr, strStarts, String.data_append]
  rfl

theorem circleStr_not_line (c : ℚ × ℚ) :
    strStarts "    <line" (circleStr c) = false := by
  simp only [circleStr, strStarts, String.data_append]
  rfl

theorem gridLineStr_is_line (w p y : ℚ) :
    strStarts "    <line" (gridLineStr w p y) = true := by
  simp only [gridLineStr, strStarts, String.data_append]
  rfl

theorem gridLineStr_not_circle (w p y : ℚ) :
    strStarts "  <circle" (gridLineStr w p y) = false := by
  simp only [gridLineStr, strStarts, String.data_append]
  rfl

theorem svgOpenStr_not_circle (w h : ℚ) :
    strStarts "  <circle" (svgOpenStr w h) = false := by
  simp only [svgOpenStr, strStarts, String.data_append]
  rfl

theorem svgOpenStr_not_line (w h : ℚ) :
    strStarts "    <line" (svgOpenStr w h) = false := by
  simp only [svgOpenStr, strStarts, String.data_append]
  rfl

theorem pathLineStr_not_circle (cs : List (ℚ × ℚ)) :
    strStarts "  <circle" (pathLineStr cs) = false := by
  simp only [pathLineStr, strStarts, String.data_append]
  rfl

theorem pathLineStr_not_line (cs : List (ℚ × ℚ)) :
    strStarts "    <line" (pathLineStr cs) = false := by
  simp only [pathLineStr, strStarts, String.data_append]
  rfl

theorem labelTextStr_not_circle (h p : ℚ) (c : ℚ × ℚ) (label : String) :
    strStarts "  <circle" (labelTextStr h p c label) = false := by
  simp only [labelTextStr, strStarts, String.data_append]
  rfl

theorem labelTextStr_not_line (h p : ℚ) (c : ℚ × ℚ) (label : String) :
    strStarts "    <line" (labelTextStr h p c label) = false := by
  simp only [labelTextStr, strStarts, String.data_append]
  rfl

theorem valueTextStr_not_circle (c : ℚ × ℚ) (v : ℚ) :
    strStarts "  <circle" (valueTextStr c v) = false := by
  simp only [valueTextStr, strStarts, String.data_append]
  rfl

theorem valueTextStr_not_line (c : ℚ × ℚ) (v : ℚ) :
    strStarts "    <line" (valueTextStr c v) = false := by
  simp only [valueTextStr, strStarts, String.data_append]
  rfl

theorem titleStr_not_circle (w p : ℚ) :
    strStarts "  <circle" (titleStr w p) = false := by
  simp only [titleStr, strStarts, String.data_append]
  rfl

theorem titleStr_not_line (w p : ℚ) :
    strStarts "    <line" (titleStr w p) = false := by
  simp only [titleStr, strStarts, String.data_append]
  rfl

/-! ## Helper lemmas: counting emitted lines -/

theorem countMatching_of_all_true (pre : String) (ls : List String)
    (hall : ∀ l ∈ ls, strStarts pre l = true) :
    countMatching pre ls = ls.length := by
  unfold countMatching
  rw [List.filter_eq_self.mpr hall]

theorem countMatching_of_all_false (pre : String) (ls : List String)
    (hall : ∀ l ∈ ls, strStarts pre l = false) :
    countMatching pre ls = 0 := by
  unfold countMatching
  rw [List.filter_eq_nil_iff.mpr (by intro l hl; simp [hall l hl])]
  rfl

theorem markerLines_circle_count (h p : ℚ) (l : List ((ℚ × ℚ) × String × ℚ)) :
    countMatching "  <circle" (markerLines h p l) = l.length := by
  induction l with
  | nil => rfl
  | cons hd rest ih =>
    rcases hd with ⟨c, label, v⟩
    simp only [markerLines, countMatching, List.filter_cons] at ih ⊢
    rw [circleStr_is_circle, labelTextStr_not_circle, valueTextStr_not_circle]
    simpa using ih

theorem markerLines_line_count (h p : ℚ) (l : List ((ℚ × ℚ) × String × ℚ)) :
    countMatching "    <line" (markerLines h p l) = 0 := by
  induction l with
  | nil => rfl
  | cons hd rest ih =>
    rcases hd with ⟨c, label, v⟩
    simp only [markerLines, countMatching, List.filter_cons] at ih ⊢
    rw [circleStr_not_line, labelTextStr_not_line, valueTextStr_not_line]
    simpa using ih

theorem gridLines_line_count (w h p : ℚ) :
    countMatching "    <line" (gridLines w h p) = 5 := by
  rw [countMatching_of_all_true]
  · simp [gridLines]
  · intro l hl
    rcases List.mem_map.mp hl with ⟨i, _, rfl⟩
    exact gridLineStr_is_line w p (gridY h p i)

theorem gridLines_circle_count (w h p : ℚ) :
    countMatching "  <circle" (gridLines w h p) = 0 := by
  rw [countMatching_of_all_false]
  intro l hl
  rcases List.mem_map.mp hl with ⟨i, _, rfl⟩
  exact gridLineStr_not_circle w p (gridY h p i)

/-- Every member of a short explicit list of non-circle, non-gridline lines
fails both prefix tests; helper for the two counting theorems. -/
theorem countMatching_cons_false (pre : String) (a : String) (ls : List String)
    (ha : strStarts pre a = false) :
    countMatching pre (a :: ls) = countMatching pre ls := by
  simp [countMatching, List.filter_cons, ha]

theorem countMatching_nil (pre : String) : countMatching pre [] = 0 := rfl

/-- The number of `circle` markers in the emitted SVG is the number of
`(coordinate, label, value)` triples. -/
theorem svgLines_circle_count (w h p : ℚ) (cs : List (ℚ × ℚ))
    (labels : List String) (values : List ℚ) :
    countMatching "  <circle" (svgLines w h p cs labels values)
      = (cs.zip (labels.zip values)).length := by
  unfold svgLines
  rw [countMatching_append, countMatching_append, countMatching_append,
    countMatching_append]
  rw [gridLines_circle_count, markerLines_circle_count]
  rw [countMatching_cons_false _ _ _ (svgOpenStr_not_circle w h),
    countMatching_cons_false _ _ _ (by decide),
    countMatching_cons_false _ _ _ (by decide), countMatching_nil]
  rw [countMatching_cons_false _ _ _ (by decide),
    countMatching_cons_false _ _ _ (pathLineStr_not_circle cs), countMatching_nil]
  rw [countMatching_cons_false _ _ _ (titleStr_not_circle w p),
    countMatching_cons_false _ _ _ (by decide), countMatching_nil]
  omega

/-- The emitted SVG contains exactly five gridline elements. -/
theorem svgLines_line_count (w h p : ℚ) (cs : List (ℚ × ℚ))
    (labels : List String) (values : List ℚ) :
    countMatching "    <line" (svgLines w h p cs labels values) = 5 := by
  unfold svgLines
  rw [countMatching_append, countMatching_append, countMatching_append,
    countMatching_append]
  rw [gridLines_line_count, markerLines_line_count]
  rw [countMatching_cons_false _ _ _ (svgOpenStr_not_line w h),
    countMatching_cons_false _ _ _ (by decide),
    countMatching_cons_false _ _ _ (by decide), countMatching_nil]
  rw [countMatching_cons_false _ _ _ (by decide),
    countMatching_cons_false _ _ _ (pathLineStr_not_line cs), countMatching_nil]
  rw [countMatching_cons_false _ _ _ (titleStr_not_line w p),
    countMatching_cons_false _ _ _ (by decide), countMatching_nil]

/-! ## Helper lemmas: path text -/

theorem joinSep_cons_eq (sep a : String) (l : List String) :
    ∃ t, joinSep sep (a :: l) = a ++ t := by
  cases l with
  | nil => exact ⟨"", by simp [joinSep]⟩
  | cons b rest =>
    refine ⟨sep ++ joinSep sep (b :: rest), ?_⟩
    show a ++ sep ++ joinSep sep (b :: rest) = a ++ (sep ++ joinSep sep (b :: rest))
    rw [String.append_assoc]

theorem ratRound_sixhundredths : ratRound ((60 : ℚ) * 100) = 6000 := by
  rw [ratRound]
  norm_num
  decide

theorem fmt2_sixty : fmt2 60 = "60.00" := by
  rw [fmt2, ratRound_sixhundredths]
  rfl

/-! ## Claims -/

/-- C1 (counterexample): on the two-point all-equal series `[5, 5]` every
scaled y-coordinate is `360 = padding + usable_height`, not the claimed
mid-line value `padding + usable_height / 2 = 210`. -/
theorem c1_counterexample :
    listMin [(5 : ℚ), 5] = some 5
    ∧ listMax [(5 : ℚ), 5] = some 5
    ∧ (coords 900 420 60 5 5 [5, 5]).map Prod.snd = [360, 360]
    ∧ (360 : ℚ) ≠ 60 + usableHeight 420 60 / 2 := by
  refine ⟨by simp [listMin], by simp [listMax], ?_, by norm_num [usableHeight]⟩
  simp [coords, coordsAux, yCoord, valRange, usableHeight]
  norm_num

/-- C1 (amended): for a non-empty series in which all values are equal, the
range-zero fallback (substituting `1` for the range) renders every point at
`padding + usable_height` — a flat line at the bottom of the usable vertical
span — rather than failing. -/
theorem c1_flat_line_at_bottom (w h p c : ℚ) (values : List ℚ)
    (hne : values ≠ []) (hall : ∀ v ∈ values, v = c) :
    listMin values = some c ∧ listMax values = some c
    ∧ ∀ xy ∈ coords w h p c c values, xy.2 = p + usableHeight h p := by
  have hmn : listMin values = some c := by
    cases values with
    | nil => exact absurd rfl hne
    | cons v vs =>
      rcases listMin_spec (v :: vs) (vs.foldl min v) rfl with ⟨hmem, _⟩
      simpa [listMin] using congrArg some (hall _ hmem)
  have hmx : listMax values = some c := by
    cases values with
    | nil => exact absurd rfl hne
    | cons v vs =>
      rcases listMax_spec (v :: vs) (vs.foldl max v) rfl with ⟨hmem, _⟩
      simpa [listMax] using congrArg some (hall _ hmem)
  refine ⟨hmn, hmx, ?_⟩
  intro xy hxy
  rcases coordsAux_mem _ _ _ _ _ _ _ _ _ hxy with ⟨k, v, hv, _, _, rfl⟩
  have hvc : v = c := hall v hv
  subst hvc
  simp [yCoord, valRange]

/-- C1 witness: the amended theorem applied to the concrete flat series
`[5, 5]` gives the bottom-line y-value for its first point. -/
theorem c1_witness :
    ((coords 900 420 60 5 5 [5, 5]).getD 0 (0, 0)).2 = 60 + usableHeight 420 60 :=
  (c1_flat_line_at_bottom 900 420 60 5 [5, 5] (by simp)
      (by intro v hv; rcases List.mem_cons.mp hv with h | h <;> simp_all)).2.2
    _ (by simp [coords, coordsAux])

/-- C2 (counterexample): on the empty series the script terminates with the
`ValueError` raised by `min()` on an empty sequence — not with a
`ZeroDivisionError` as claimed.  (The division by the point count,
`len(values) - 1`, is guarded by the `len(values) > 1` conditional and is
never reached: `min(values)` at line 19 raises first.) -/
theorem c2_counterexample :
    runScript (.json (jsonOfPoints [])) = ([], some PyErr.valueErrorEmptySeq)
    ∧ PyErr.valueErrorEmptySeq ≠ PyErr.zeroDivisionError := by
  exact ⟨rfl, by decide⟩

/-- C2 (amended): on the empty series the script fails before writing any
output (its effect trace is empty), and the failure is the `ValueError`
raised by `min()` on an empty sequence. -/
theorem c2_empty_series_fails_before_write :
    scriptBody (jsonOfPoints []) = .error PyErr.valueErrorEmptySeq
    ∧ runScript (.json (jsonOfPoints [])) = ([], some PyErr.valueErrorEmptySeq) :=
  ⟨rfl, rfl⟩

/-- C6: a single-point series is centered horizontally: its only scaled
x-coordinate is `padding + usable_width / 2`. -/
theorem c6_single_point_centered (w h p v mn mx : ℚ) :
    (coords w h p mn mx [v]).map Prod.fst = [p + usableWidth w p / 2] := by
  simp [coords, coordsAux, xCoord]

/-- C7: rendering is deterministic — the run is a pure function of the
input file's contents, with no dependence on randomness, timestamps, or any
other state, so two runs on the same input produce identical output. -/
theorem c7_deterministic (input₁ input₂ : FileInput) (hsame : input₁ = input₂) :
    runScript input₁ = runScript input₂ := by
  rw [hsame]

/-- C7 witness: two runs on the same one-point payload coincide. -/
theorem c7_witness :
    runScript (.json (jsonOfPoints [⟨"W1", 1000⟩]))
      = runScript (.json (jsonOfPoints [⟨"W1", 1000⟩])) :=
  c7_deterministic _ _ rfl

/-- C9: on every failure path (missing input file, malformed JSON, missing
keys, empty points array, ...), the script terminates with an empty effect
trace: nothing is ever written to the output location before the final,
post-computation write statement. -/
theorem c9_no_output_on_failure (input : FileInput)
    (hfail : (runScript input).2 ≠ none) :
    (runScript input).1 = [] := by
  cases input with
  | missing => rfl
  | unparsable => rfl
  | json payload =>
    cases hsb : scriptBody payload with
    | ok text => simp [runScript, hsb] at hfail
    | error e => simp [runScript, hsb]

/-- C9 witness: the missing-input-file failure writes nothing. -/
theorem c9_witness :
    (runScript .missing).2 ≠ none ∧ (runScript .missing).1 = [] :=
  ⟨by decide, c9_no_output_on_failure .missing (by decide)⟩

/-- Larger values map to strictly smaller y-coordinates when the value range
and the usable height are positive. -/
theorem yCoord_strict_anti (h p mn r : ℚ) (hr : 0 < r)
    (huh : 0 < usableHeight h p) (a b : ℚ) (hab : a < b) :
    yCoord h p mn r b < yCoord h p mn r a := by
  have hsub : (b - mn) / r - (a - mn) / r = (b - a) / r := by
    rw [div_sub_div_same]
    ring_nf
  have hpos : 0 < (b - a) / r := div_pos (by linarith) hr
  have ht : (a - mn) / r < (b - mn) / r := by linarith
  have hm := mul_lt_mul_of_pos_left ht huh
  simp only [yCoord, mul_one_sub]
  linarith

/-- The non-strict version of `yCoord_strict_anti`. -/
theorem yCoord_anti (h p mn r : ℚ) (hr : 0 < r)
    (huh : 0 ≤ usableHeight h p) (a b : ℚ) (hab : a ≤ b) :
    yCoord h p mn r b ≤ yCoord h p mn r a := by
  have hsub : (b - mn) / r - (a - mn) / r = (b - a) / r := by
    rw [div_sub_div_same]
    ring_nf
  have hpos : 0 ≤ (b - a) / r := div_nonneg (by linarith) (le_of_lt hr)
  have ht : (a - mn) / r ≤ (b - mn) / r := by linarith
  have hm := mul_le_mul_of_nonneg_left ht huh
  simp only [yCoord, mul_one_sub]
  linarith

/-- C3: for a non-empty series whose values are not all equal, value-to-y is
strictly decreasing (inverted-axis convention), the scaled y-coordinates are
exactly the `yCoord` images of the values, and the point carrying the maximum
value has the smallest scaled y-coordinate. -/
theorem c3_inverted_axis (w h p : ℚ) (values : List ℚ) (mn mx : ℚ)
    (hp : 2 * p < h)
    (hmn : listMin values = some mn) (hmx : listMax values = some mx)
    (hne : ∃ a ∈ values, ∃ b ∈ values, a ≠ b) :
    ((coords w h p mn mx values).map Prod.snd
        = values.map (yCoord h p mn (valRange mn mx)))
    ∧ (∀ a ∈ values, ∀ b ∈ values, a < b →
        yCoord h p mn (valRange mn mx) b < yCoord h p mn (valRange mn mx) a)
    ∧ mx ∈ values
    ∧ ∀ v ∈ values, yCoord h p mn (valRange mn mx) mx
        ≤ yCoord h p mn (valRange mn mx) v := by
  obtain ⟨a0, ha0, b0, hb0, hab0⟩ := hne
  rcases listMin_spec values mn hmn with ⟨hmnmem, hmnle⟩
  rcases listMax_spec values mx hmx with ⟨hmxmem, hmxle⟩
  have hlt : mn < mx := by
    rcases lt_or_le mn mx with h1 | h1
    · exact h1
    · exfalso
      have ha : a0 = mn := le_antisymm (le_trans (hmxle a0 ha0) h1) (hmnle a0 ha0)
      have hb : b0 = mn := le_antisymm (le_trans (hmxle b0 hb0) h1) (hmnle b0 hb0)
      exact hab0 (ha.trans hb.symm)
  have hr : 0 < valRange mn mx := by
    rw [valRange]
    split
    · norm_num
    · linarith
  have huh : 0 < usableHeight h p := by
    rw [usableHeight]
    linarith
  refine ⟨coordsAux_map_snd w h p mn (valRange mn mx) values.length 0 values, ?_,
    hmxmem, ?_⟩
  · intro a _ b _ hab
    exact yCoord_strict_anti h p mn _ hr huh a b hab
  · intro v hv
    exact yCoord_anti h p mn _ hr (le_of_lt huh) v mx (hmxle v hv)

/-- C3 witness: in the series `[1000, 1500, 1200]` the maximal value `1500`
gets a strictly smaller y than `1000` does. -/
theorem c3_witness :
    yCoord 420 60 1000 (valRange 1000 1500) 1500
      < yCoord 420 60 1000 (valRange 1000 1500) 1000 :=
  (c3_inverted_axis 900 420 60 [1000, 1500, 1200] 1000 1500 (by norm_num)
      (by decide) (by decide)
      ⟨1000, by simp, 1500, by simp, by norm_num⟩).2.1
    1000 (by simp) 1500 (by simp) (by norm_num)

/-- Every scaled x-coordinate lies within the horizontal usable span. -/
theorem xCoord_bounds (w p : ℚ) (n k : ℕ) (hw : 2 * p ≤ w) (hk : k < n) :
    p ≤ xCoord w p n k ∧ xCoord w p n k ≤ w - p := by
  have huw : 0 ≤ usableWidth w p := by
    rw [usableWidth]
    linarith
  have huweq : usableWidth w p = w - 2 * p := rfl
  rw [xCoord]
  split
  case isTrue hn =>
    have hkn : (k : ℚ) ≤ ((n - 1 : ℕ) : ℚ) := by
      exact_mod_cast Nat.le_sub_one_of_lt hk
    have hdpos : (0 : ℚ) < ((n - 1 : ℕ) : ℚ) := by
      exact_mod_cast (show 0 < n - 1 by omega)
    have ht0 : 0 ≤ (k : ℚ) / ((n - 1 : ℕ) : ℚ) :=
      div_nonneg (Nat.cast_nonneg k) (le_of_lt hdpos)
    have ht1 : (k : ℚ) / ((n - 1 : ℕ) : ℚ) ≤ 1 := (div_le_one hdpos).mpr hkn
    rw [mul_div_assoc]
    constructor
    · have := mul_nonneg huw ht0
      linarith
    · have h2 := mul_le_mul_of_nonneg_left ht1 huw
      rw [mul_one] at h2
      linarith
  case isFalse hn =>
    have h2 : 0 ≤ usableWidth w p / 2 := by linarith
    constructor
    · linarith
    · linarith

/-- Every scaled y-coordinate lies within the vertical usable span, for any
value between the series minimum and maximum. -/
theorem yCoord_bounds (h p mn mx v : ℚ) (hh : 2 * p ≤ h)
    (hmnv : mn ≤ v) (hvmx : v ≤ mx) :
    p ≤ yCoord h p mn (valRange mn mx) v
      ∧ yCoord h p mn (valRange mn mx) v ≤ h - p := by
  have huh : 0 ≤ usableHeight h p := by
    rw [usableHeight]
    linarith
  have huheq : usableHeight h p = h - 2 * p := rfl
  have ht0 : 0 ≤ (v - mn) / valRange mn mx := by
    apply div_nonneg (by linarith)
    rw [valRange]
    split
    · norm_num
    · linarith
  have ht1 : (v - mn) / valRange mn mx ≤ 1 := by
    rw [valRange]
    split
    case isTrue h' =>
      have hvmn : v = mn := le_antisymm (by linarith) hmnv
      simp [hvmn]
    case isFalse h' =>
      have hlt : 0 < mx - mn := lt_of_le_of_ne (by linarith) (Ne.symm h')
      exact (div_le_one hlt).mpr (by linarith)
  rw [yCoord]
  constructor
  · have := mul_nonneg huh (by linarith : (0 : ℚ) ≤ 1 - (v - mn) / valRange mn mx)
    linarith
  · have h2 := mul_le_mul_of_nonneg_left
      (by linarith : 1 - (v - mn) / valRange mn mx ≤ (1 : ℚ)) huh
    rw [mul_one] at h2
    linarith

/-- C10: every scaled point of a non-empty series lies inside the usable
area: x within `[padding, width - padding]` and y within
`[padding, height - padding]`. -/
theorem c10_points_in_usable_area (w h p : ℚ) (values : List ℚ) (mn mx : ℚ)
    (hw : 2 * p ≤ w) (hh : 2 * p ≤ h)
    (hmn : listMin values = some mn) (hmx : listMax values = some mx) :
    ∀ xy ∈ coords w h p mn mx values,
      (p ≤ xy.1 ∧ xy.1 ≤ w - p) ∧ p ≤ xy.2 ∧ xy.2 ≤ h - p := by
  rcases listMin_spec values mn hmn with ⟨_, hmnle⟩
  rcases listMax_spec values mx hmx with ⟨_, hmxle⟩
  intro xy hxy
  rcases coordsAux_mem _ _ _ _ _ _ _ _ _ hxy with ⟨k, v, hv, _, hk, rfl⟩
  refine ⟨xCoord_bounds w p values.length k hw (by simpa using hk), ?_⟩
  exact yCoord_bounds h p mn mx v hh (hmnle v hv) (hmxle v hv)

/-- C10 witness: the first scaled point of the series `[1000, 1500]` lies in
the usable area of the 900×420 chart with padding 60. -/
theorem c10_witness :
    ((60 : ℚ) ≤ ((coords 900 420 60 1000 1500 [1000, 1500]).getD 0 (0, 0)).1
      ∧ ((coords 900 420 60 1000 1500 [1000, 1500]).getD 0 (0, 0)).1 ≤ 900 - 60)
    ∧ (60 : ℚ) ≤ ((coords 900 420 60 1000 1500 [1000, 1500]).getD 0 (0, 0)).2
      ∧ ((coords 900 420 60 1000 1500 [1000, 1500]).getD 0 (0, 0)).2 ≤ 420 - 60 :=
  c10_points_in_usable_area 900 420 60 [1000, 1500] 1000 1500 (by norm_num)
    (by norm_num) (by decide) (by decide) _ (by simp [coords, coordsAux])

/-- C4: for a non-empty series the scaled-coordinate list has one entry per
data point, the emitted SVG contains exactly one circle marker per data
point, and entry `i` is the scaled image of data point `i` (same order). -/
theorem c4_one_marker_per_point (points : List DataPoint) (_hne : points ≠ [])
    (mn mx : ℚ) :
    (coords 900 420 60 mn mx (points.map (fun dp => dp.totalValue))).length
        = points.length
    ∧ countMatching "  <circle"
        (svgLines 900 420 60
          (coords 900 420 60 mn mx (points.map (fun dp => dp.totalValue)))
          (points.map (fun dp => dp.label))
          (points.map (fun dp => dp.totalValue)))
        = points.length
    ∧ ∀ i, i < points.length →
        (coords 900 420 60 mn mx (points.map (fun dp => dp.totalValue))).getD i (0, 0)
          = (xCoord 900 60 points.length i,
             yCoord 420 60 mn (valRange mn mx)
               ((points.map (fun dp => dp.totalValue)).getD i 0)) := by
  have hlen : (points.map (fun dp => dp.totalValue)).length = points.length :=
    List.length_map points _
  refine ⟨by rw [coords_length, hlen], ?_, ?_⟩
  · rw [svgLines_circle_count, List.length_zip, List.length_zip, coords_length]
    simp
  · intro i hi
    rw [coords_getD 900 420 60 mn mx _ i (by rw [hlen]; exact hi), hlen]

/-- C4 witness: the three-point example series produces exactly three circle
markers. -/
theorem c4_witness :
    countMatching "  <circle"
      (svgLines 900 420 60
        (coords 900 420 60 1000 1500
          (([⟨"W1", 1000⟩, ⟨"W2", 1500⟩, ⟨"W3", 1200⟩] : List DataPoint).map
            (fun dp => dp.totalValue)))
        (([⟨"W1", 1000⟩, ⟨"W2", 1500⟩, ⟨"W3", 1200⟩] : List DataPoint).map
          (fun dp => dp.label))
        (([⟨"W1", 1000⟩, ⟨"W2", 1500⟩, ⟨"W3", 1200⟩] : List DataPoint).map
          (fun dp => dp.totalValue)))
      = 3 :=
  (c4_one_marker_per_point [⟨"W1", 1000⟩, ⟨"W2", 1500⟩, ⟨"W3", 1200⟩]
    (by simp) 1000 1500).2.1

/-- C5: in a series with more than one point, the scaled x-coordinate of
point `i` is `padding + usable_width * i / (n - 1)`; with the script's
constants (padding 60) the SVG path string begins with a move-to command at
x = 60, i.e. with `"M 60.00"`. -/
theorem c5_x_spacing_and_path_start (values : List ℚ) (mn mx : ℚ)
    (hn : 1 < values.length) :
    (∀ (w h p : ℚ) (i : ℕ), i < values.length →
        ((coords w h p mn mx values).getD i (0, 0)).1
          = p + usableWidth w p * i / ((values.length : ℚ) - 1))
    ∧ strStarts "M 60.00" (pathD (coords 900 420 60 mn mx values)) = true := by
  constructor
  · intro w h p i hi
    rw [coords_getD w h p mn mx values i hi]
    show xCoord w p values.length i = _
    rw [xCoord, if_pos hn, Nat.cast_sub (by omega)]
    norm_num
  · cases values with
    | nil => simp at hn
    | cons v vs =>
      have hx0 : xCoord 900 60 (v :: vs).length 0 = 60 := by
        rw [xCoord, if_pos (by simpa using hn)]
        norm_num
      have hcs : coords 900 420 60 mn mx (v :: vs)
          = (xCoord 900 60 (v :: vs).length 0,
             yCoord 420 60 mn (valRange mn mx) v)
            :: coordsAux 900 420 60 mn (valRange mn mx) (v :: vs).length 1 vs := rfl
      rw [hcs, pathD, List.map_cons]
      rcases joinSep_cons_eq " L "
          (fmtPair (xCoord 900 60 (v :: vs).length 0,
            yCoord 420 60 mn (valRange mn mx) v))
          ((coordsAux 900 420 60 mn (valRange mn mx) (v :: vs).length 1 vs).map fmtPair)
        with ⟨t, ht⟩
      rw [ht]
      simp only [fmtPair]
      rw [hx0, fmt2_sixty]
      simp only [strStarts, String.data_append]
      rfl

/-- C5 witness: the path for the example series starts with `"M 60.00"`. -/
theorem c5_witness :
    strStarts "M 60.00"
      (pathD (coords 900 420 60 1000 1500 [1000, 1500, 1200])) = true :=
  (c5_x_spacing_and_path_start [1000, 1500, 1200] 1000 1500 (by simp)).2

/-- C8: the emitted SVG of any series contains exactly five horizontal
gridlines, gridline `i` sits at `y = padding + usable_height * i / 4`, and
each gridline element (spanning from `x1 = padding` to `x2 = width -
padding`, as `gridLineStr` shows) is one of the emitted lines. -/
theorem c8_five_even_gridlines (w h p : ℚ) (cs : List (ℚ × ℚ))
    (labels : List String) (values : List ℚ) (_hne : values ≠ []) :
    countMatching "    <line" (svgLines w h p cs labels values) = 5
    ∧ (∀ i, i < 5 → gridY h p i = p + usableHeight h p * i / 4)
    ∧ ∀ i, i < 5 → gridLineStr w p (gridY h p i) ∈ svgLines w h p cs labels values := by
  refine ⟨svgLines_line_count w h p cs labels values, fun i _ => rfl, ?_⟩
  intro i hi
  have hmem : gridLineStr w p (gridY h p i) ∈ gridLines w h p :=
    List.mem_map.mpr ⟨i, List.mem_range.mpr hi, rfl⟩
  unfold svgLines
  simp [hmem]

/-- C8 witness: the one-point series `[7]` yields exactly five gridlines. -/
theorem c8_witness :
    countMatching "    <line"
      (svgLines 900 420 60 (coords 900 420 60 7 7 [7]) ["W1"] [7]) = 5 :=
  (c8_five_even_gridlines 900 420 60 (coords 900 420 60 7 7 [7]) ["W1"] [7]
    (by simp)).1
